import Mathlib

/-!
Verification of the event-driven job pipeline of the oushtt/oushcode
repository (webhook ingress, SQLite job store, event-to-job translator,
worker loop, job handlers) against its natural-language specification.

The Python sources are shallowly embedded:

* JSON payloads (Python dicts produced by `request.json()`) are modelled by
  the inductive type `JVal`; Python truthiness, `dict.get`, `int(...)` and
  `str(...)` are modelled by `truthy`, `pyGet`/`pyGetD`, `pyInt`, `pyStr`.
* The SQLite database (`src/agent/storage/db.py`) is modelled by `DBState`:
  one list per table, plus the AUTOINCREMENT counter for `jobs.id`.
  Each function of `db.py` becomes a pure function on `DBState`.
  Timestamp columns (`created_at`, `updated_at`, `received_at`) are elided:
  no queried predicate reads them (ordering is always by `id`).
* Fallible Python code (`int(x)` raising, `request.json()` failing) is
  modelled with `Except String`: a raised exception propagates out of the
  webhook handler with the database state as of the raise.
-/

/-- A JSON value / Python object, as produced by `request.json()`.
`null` also stands for Python `None` (e.g. the result of `dict.get` on a
missing key). Numbers are modelled as integers: every numeric field the
pipeline reads (issue/PR numbers, iteration counters) is integral. -/
inductive JVal where
  | null : JVal
  | jbool : Bool → JVal
  | jnum : Int → JVal
  | jstr : String → JVal
  | jarr : List JVal → JVal
  | jobj : List (String × JVal) → JVal

/-- Python truthiness: `None`, `False`, `0`, `""`, `[]`, `{}` are falsy. -/
def truthy : JVal → Bool
  | .null => false
  | .jbool b => b
  | .jnum n => n != 0
  | .jstr s => s ≠ ""
  | .jarr xs => !xs.isEmpty
  | .jobj kvs => !kvs.isEmpty

/-- `d.get(k)`: `None` when the key is missing.  Call sites in the source
only invoke `.get` on dicts (non-dicts are guarded by `... or {}` or by
`isinstance` checks); on a non-dict we return `null`. -/
def pyGet : JVal → String → JVal
  | .jobj kvs, k => ((kvs.lookup k).getD .null)
  | _, _ => .null

/-- `d.get(k, default)`: the default is used only when the key is missing
(a key explicitly bound to `null` is returned as `null`). -/
def pyGetD : JVal → String → JVal → JVal
  | .jobj kvs, k, d => ((kvs.lookup k).getD d)
  | _, _, d => d

/-- `x or {}` — Python returns `x` when truthy, else the right operand. -/
def pyOrObj (v : JVal) : JVal :=
  if truthy v then v else .jobj []

/-- `x or y` on arbitrary Python values. -/
def pyOr (v w : JVal) : JVal :=
  if truthy v then v else w

/-- `int(x)`: succeeds on ints, bools and integral strings; raises
`TypeError`/`ValueError` otherwise (modelled as `Except.error`). -/
def pyInt : JVal → Except String Int
  | .jnum n => .ok n
  | .jbool b => .ok (if b then 1 else 0)
  | .jstr s =>
    match s.trim.toInt? with
    | some n => .ok n
    | none => .error "ValueError: invalid literal for int()"
  | _ => .error "TypeError: int() argument"

/-- `str(x)` for the scalar values the pipeline formats (shas, decisions,
CI strings).  Containers never reach a `str(...)` call site on the paths
modelled here; they are rendered with a fixed marker. -/
def pyStr : JVal → String
  | .jstr s => s
  | .jnum n => toString n
  | .jbool b => if b then "True" else "False"
  | .null => "None"
  | .jarr _ => "<list>"
  | .jobj _ => "<dict>"

/-- `s.startswith(p)` — prefix test on the character sequences. -/
def strStartsWith (s p : String) : Bool :=
  p.data.isPrefixOf s.data

/-- `s.lower()` — ASCII lowercasing of every character, which is how the
pipeline's decision/CI keywords are compared. -/
def pyLower (s : String) : String :=
  String.mk (s.data.map Char.toLower)

/-- The value a Python object takes when bound to a TEXT column
(SQLite TEXT affinity): strings pass through, ints/bools are converted,
`None` stays NULL.  Lists/dicts cannot be bound (`sqlite3` raises); the
guarded call sites never pass them, and we map them to NULL. -/
def storedText : JVal → Option String
  | .jstr s => some s
  | .jnum n => some (toString n)
  | .jbool b => some (if b then "1" else "0")
  | _ => none

/-- The value a Python object takes when bound to an INTEGER column
(SQLite INTEGER affinity): ints/bools pass through, integral strings are
converted, `None` stays NULL. -/
def storedInt : JVal → Option Int
  | .jnum n => some n
  | .jbool b => some (if b then 1 else 0)
  | .jstr s => s.trim.toInt?
  | _ => none

/-- One row of the `jobs` table (`db.py`, `init_db`).  The two timestamp
columns and the `error` column are carried but timestamps are elided. -/
structure JobRow where
  id : Nat
  kind : String
  status : String
  payload : JVal
  repo : Option String
  issue_number : Option Int
  pr_number : Option Int
  head_sha : Option String
  iter : Int
  delivery_id : Option String
  error : Option String

/-- One row of the `iterations` table. -/
structure IterRow where
  repo : String
  issue_number : Option Int
  pr_number : Option Int
  iter : Int
  status : String

/-- The SQLite database of `src/agent/storage/db.py`: the four tables and
the AUTOINCREMENT counter backing `jobs.id`. -/
structure DBState where
  deliveries : List String
  jobs : List JobRow
  iterations : List IterRow
  review_keys : List (String × Int × String)
  nextId : Nat

/-- The empty database produced by `init_db` on a fresh file. -/
def initDB : DBState :=
  { deliveries := [], jobs := [], iterations := [], review_keys := [], nextId := 1 }

/-- `delivery_seen(conn, delivery_id)` — `SELECT 1 FROM deliveries WHERE
delivery_id = ? LIMIT 1`. -/
def delivery_seen (s : DBState) (d : String) : Bool :=
  decide (d ∈ s.deliveries)

/-- `mark_delivery(conn, delivery_id)` — `INSERT OR IGNORE`. -/
def mark_delivery (s : DBState) (d : String) : DBState :=
  if d ∈ s.deliveries then s
  else { s with deliveries := d :: s.deliveries }

/-- `review_seen(conn, repo, pr_number, head_sha)`. -/
def review_seen (s : DBState) (repo : String) (pr : Int) (sha : String) : Bool :=
  decide ((repo, pr, sha) ∈ s.review_keys)

/-- `mark_review(conn, repo, pr_number, head_sha)` — `INSERT OR IGNORE`. -/
def mark_review (s : DBState) (repo : String) (pr : Int) (sha : String) : DBState :=
  if (repo, pr, sha) ∈ s.review_keys then s
  else { s with review_keys := (repo, pr, sha) :: s.review_keys }

/-- `enqueue_job(...)`: INSERT a row with `status='queued'` and
`iter = int(iter_num) if iter_num is not None else 0`; returns
`lastrowid`.  Jobs are appended, so the list is in ascending-id order. -/
def enqueue_job (s : DBState) (kind : String) (payload : JVal)
    (repo : Option String) (issue_number pr_number : Option Int)
    (head_sha : Option String) (iter_num : Option Int)
    (delivery_id : Option String) : Nat × DBState :=
  let row : JobRow :=
    { id := s.nextId, kind := kind, status := "queued", payload := payload,
      repo := repo, issue_number := issue_number, pr_number := pr_number,
      head_sha := head_sha, iter := iter_num.getD 0,
      delivery_id := delivery_id, error := none }
  (s.nextId, { s with jobs := s.jobs ++ [row], nextId := s.nextId + 1 })

/-- Priority of a `kind` string, as the `CASE kind WHEN ...` expression in
`fetch_next_job`: fix=0, review=1, issue=2, anything else 3. -/
def kindPriority (kind : String) : Nat :=
  if kind = "fix" then 0
  else if kind = "review" then 1
  else if kind = "issue" then 2
  else 3

/-- The `ORDER BY (kind-priority, id)` sort key of a job row. -/
def jobKey (j : JobRow) : Nat × Nat :=
  (kindPriority j.kind, j.id)

/-- Strict lexicographic comparison of sort keys. -/
def keyLt (a b : Nat × Nat) : Prop :=
  a.1 < b.1 ∨ (a.1 = b.1 ∧ a.2 < b.2)

instance (a b : Nat × Nat) : Decidable (keyLt a b) := by
  unfold keyLt; infer_instance

/-- `min` of two rows under the `ORDER BY`, keeping the left row on ties
(as `LIMIT 1` returns the first row of the sorted output). -/
def betterJob (a b : JobRow) : JobRow :=
  if keyLt (jobKey b) (jobKey a) then b else a

/-- `fetch_next_job(conn)`: `SELECT * FROM jobs WHERE status='queued'
ORDER BY CASE kind ... END, id ASC LIMIT 1`.  A pure read. -/
def fetch_next_job (s : DBState) : Option JobRow :=
  match s.jobs.filter (fun j => j.status = "queued") with
  | [] => none
  | j :: rest => some (rest.foldl betterJob j)

/-- `update_job_status(conn, job_id, status, error)` — an unguarded
`UPDATE jobs SET status=?, updated_at=?, error=? WHERE id=?`. -/
def update_job_status (s : DBState) (job_id : Nat) (status : String)
    (error : Option String) : DBState :=
  { s with jobs := s.jobs.map (fun j =>
      if j.id = job_id then { j with status := status, error := error } else j) }

/-- `set_iteration_status(...)` — a plain INSERT (append-only ledger). -/
def set_iteration_status (s : DBState) (repo : String)
    (issue_number pr_number : Option Int) (iter_num : Int)
    (status : String) : DBState :=
  { s with iterations := s.iterations ++
      [{ repo := repo, issue_number := issue_number, pr_number := pr_number,
         iter := iter_num, status := status }] }

/-- The row filter of `has_active_job`: same kind, same repo, status in
`{queued, running}`, SQL-NULL-aware equality on `pr_number` and
`issue_number` (`col IS ? OR col = ?`). -/
def activeMatch (kind repo : String) (pr issue : Option Int) (j : JobRow) : Bool :=
  j.kind = kind && j.repo = some repo &&
    (j.status = "queued" || j.status = "running") &&
    j.pr_number = pr && j.issue_number = issue

/-- `has_active_job(conn, kind=..., repo=..., pr_number=..., issue_number=...)`. -/
def has_active_job (s : DBState) (kind repo : String)
    (pr issue : Option Int) : Bool :=
  s.jobs.any (activeMatch kind repo pr issue)

/-- `get_iteration_count(conn, repo=..., issue_number=..., pr_number=...)`:
`SELECT MAX(iter) FROM iterations WHERE repo = ? AND (issue_number IS ?
OR issue_number = ?) AND (pr_number IS ? OR pr_number = ?)`, with 0 when
no row matches. -/
def get_iteration_count (s : DBState) (repo : String)
    (issue pr : Option Int) : Int :=
  match (s.iterations.filter (fun r =>
      r.repo = repo && r.issue_number = issue && r.pr_number = pr)).map
      (fun r => r.iter) with
  | [] => 0
  | x :: xs => xs.foldl max x

/-!
## Event-to-Job Translator — `src/agent/jobs/enqueue.py`

Helpers `_repo_full_name`, `_extract_pr_number`, `_extract_head_sha` and
the classifier `enqueue_from_event`.  The translator threads the database
state explicitly; a raised Python exception becomes `Except.error` paired
with the state as of the raise.
-/

/-- Truthiness of a Python int-or-None (`0` and `None` are falsy). -/
def truthyOptInt : Option Int → Bool
  | none => false
  | some n => n != 0

/-- Truthiness of a Python str-or-None (`""` and `None` are falsy). -/
def truthyOptStr : Option String → Bool
  | none => false
  | some s => s ≠ ""

/-- Binding a Python value to a non-NULL TEXT parameter of a query
(`sqlite3` raises `InterfaceError` on lists/dicts/None). -/
def bindText (v : JVal) : Except String String :=
  match storedText v with
  | some s => .ok s
  | none => .error "InterfaceError: unsupported parameter type"

/-- `payload[k] = val` — dict item assignment (replace or append). -/
def jsetKey (v : JVal) (k : String) (val : JVal) : JVal :=
  match v with
  | .jobj kvs =>
    .jobj (if (kvs.lookup k).isSome
      then kvs.map (fun p => if p.1 = k then (k, val) else p)
      else kvs ++ [(k, val)])
  | other => other

/-- `_repo_full_name(payload)`. -/
def repo_full_name (payload : JVal) : JVal :=
  let repo := pyOrObj (pyGet payload "repository")
  match repo with
  | .jstr s => .jstr s
  | r => pyGet r "full_name"

/-- `_extract_pr_number(payload)`: the `try int(...) except` wrappers make
this total, returning `None` on conversion failure. -/
def extract_pr_number (payload : JVal) : Option Int :=
  let pr := pyOrObj (pyGet payload "pull_request")
  let number := pyGet pr "number"
  if truthy number then (pyInt number).toOption
  else
    let n1 := pyOr (pyGet payload "pr_number") (pyGet payload "pr")
    let n2 := match n1 with
      | .jobj kvs => pyGet (.jobj kvs) "number"
      | v => v
    match n2 with
    | .null => none
    | v => (pyInt v).toOption

/-- `_extract_head_sha(payload)`: top-level `head_sha`/`sha`, then
`head.sha`, then `pull_request.head.sha`. -/
def extract_head_sha (payload : JVal) : Option String :=
  let hs0 := pyOr (pyGet payload "head_sha") (pyGet payload "sha")
  if truthy hs0 then some (pyStr hs0)
  else
    let head := pyOrObj (pyGet payload "head")
    let fromHead : Option String :=
      match head with
      | .jobj kvs =>
        let v := pyGet (.jobj kvs) "sha"
        if truthy v then some (pyStr v) else none
      | _ => none
    match fromHead with
    | some s => some s
    | none =>
      let pr := pyOrObj (pyGet payload "pull_request")
      match pyOrObj (pyGet pr "head") with
      | .jobj kvs =>
        let v := pyGet (.jobj kvs) "sha"
        if truthy v then some (pyStr v) else none
      | _ => none

/-- Python `x == "lit"` / `x in {"lit", ...}` for a string set. -/
def isStrIn (v : JVal) (ss : List String) : Bool :=
  match v with
  | .jstr s => ss.contains s
  | _ => false

/-- `if isinstance(repo, dict): repo = repo.get("full_name")` — the
dict-unwrapping step of the `ci_completed` arm. -/
def derefFullName (v : JVal) : JVal :=
  match v with
  | .jobj kvs => pyGet (.jobj kvs) "full_name"
  | v => v

/-- The `check_suite` branch of `enqueue_from_event` (source lines
112-141), factored out: `first_pr` is `pull_requests[0]` and `head_sha`
the already-computed resolution chain.  Shared verbatim (up to the
resolution chain and the origin of the PR list) with the `workflow_run`
branch (lines 165-193) and, with `extract`-based resolution, the
`ci_completed` branch (lines 143-163). -/
def enqueue_review (s : DBState) (payload : JVal) (delivery_id : String)
    (repo pr_number head_sha : JVal) : Except String (Option Nat) × DBState :=
  if !(truthy repo && truthy pr_number && truthy head_sha) then (.ok none, s)
  else
    match pyInt pr_number with
    | .error e => (.error e, s)
    | .ok prn =>
      match bindText repo with
      | .error e => (.error e, s)
      | .ok repoS =>
        match bindText head_sha with
        | .error e => (.error e, s)
        | .ok shaS =>
          if review_seen s repoS prn shaS then (.ok none, s)
          else
            let r := enqueue_job s "review" payload
              (storedText repo) none (storedInt pr_number)
              (storedText head_sha) none (some delivery_id)
            (.ok (some r.1), mark_review r.2 repoS prn shaS)

/-- `enqueue_from_event(conn, event=..., payload=..., delivery_id=...,
retry_labels=None)` — the full classifier.  `retry_labels` defaults to
`none` (Python `None`), exactly as in the source signature. -/
def enqueue_from_event (s : DBState) (event : String) (payload : JVal)
    (delivery_id : String) (retry_labels : Option (List String)) :
    Except String (Option Nat) × DBState :=
  if event = "issues" then
    let action := pyGet payload "action"
    if !(isStrIn action ["opened", "labeled"]) then (.ok none, s)
    else
      let issue := pyOrObj (pyGet payload "issue")
      let r := enqueue_job s "issue" payload
        (storedText (repo_full_name payload))
        (storedInt (pyGet issue "number")) none none none (some delivery_id)
      (.ok (some r.1), r.2)
  else if event = "pull_request" then
    let action := pyGet payload "action"
    if isStrIn action ["labeled"] then
      let label := pyGetD (pyOrObj (pyGet payload "label")) "name" (.jstr "")
      let hit := match retry_labels with
        | none => false
        | some rls => !rls.isEmpty && isStrIn label rls
      if hit then
        let pr := pyOrObj (pyGet payload "pull_request")
        let pr_number := pyGet pr "number"
        let head_sha := pyGet (pyOrObj (pyGet pr "head")) "sha"
        let repo := repo_full_name payload
        if !(truthy repo && truthy pr_number && truthy head_sha) then (.ok none, s)
        else
          match pyInt pr_number with
          | .error e => (.error e, s)
          | .ok prn =>
            match bindText repo with
            | .error e => (.error e, s)
            | .ok repoS =>
              if has_active_job s "fix" repoS (some prn) none then (.ok none, s)
              else
                let iter_num := get_iteration_count s repoS none (some prn) + 1
                let s1 := set_iteration_status s repoS none (some prn) iter_num "queued"
                let payload1 := jsetKey payload "agent_force_retry" (.jbool true)
                let r := enqueue_job s1 "fix" payload1
                  (storedText repo) none (storedInt pr_number)
                  (storedText head_sha) (some iter_num) (some delivery_id)
                (.ok (some r.1), r.2)
      else (.ok none, s)
    else (.ok none, s)
  else if event = "check_suite" then
    let action := pyGet payload "action"
    if !(isStrIn action ["completed"]) then (.ok none, s)
    else
      match pyOr (pyGet payload "pull_requests") (.jarr []) with
      | .jarr [] => (.ok none, s)
      | .jarr (pr :: _) =>
        let pr_number := pyGet pr "number"
        let head_sha :=
          pyOr (pyGet (pyOrObj (pyGet payload "workflow_run")) "head_sha")
            (pyOr (pyGet (pyOrObj (pyGet payload "check_suite")) "head_sha")
              (pyGet (pyGetD pr "head" (.jobj [])) "sha"))
        enqueue_review s payload delivery_id (repo_full_name payload) pr_number head_sha
      | v =>
        -- a truthy non-list here is subscripted and `.get`-accessed: TypeError
        if truthy v then (.error "TypeError: object is not subscriptable", s)
        else (.ok none, s)
  else if event = "ci_completed" then
    let repo0 := pyOr (repo_full_name payload) (pyGet payload "repo")
    let pr_number := extract_pr_number payload
    let head_sha := extract_head_sha payload
    let repo := derefFullName repo0
    if !(truthy repo && truthyOptInt pr_number && truthyOptStr head_sha) then (.ok none, s)
    else
      match pr_number, head_sha with
      | some prn, some shaS =>
        match bindText repo with
        | .error e => (.error e, s)
        | .ok repoS =>
          if review_seen s repoS prn shaS then (.ok none, s)
          else
            let r := enqueue_job s "review" payload
              (storedText repo) none (some prn) (some shaS) none (some delivery_id)
            (.ok (some r.1), mark_review r.2 repoS prn shaS)
      | _, _ => (.ok none, s)
  else if event = "workflow_run" then
    let action := pyGet payload "action"
    if !(isStrIn action ["completed"]) then (.ok none, s)
    else
      match pyOr (pyGet (pyOrObj (pyGet payload "workflow_run")) "pull_requests") (.jarr []) with
      | .jarr [] => (.ok none, s)
      | .jarr (pr :: _) =>
        let pr_number := pyGet pr "number"
        let head_sha :=
          pyOr (pyGet (pyOrObj (pyGet payload "workflow_run")) "head_sha")
            (pyGet (pyGetD pr "head" (.jobj [])) "sha")
        enqueue_review s payload delivery_id (repo_full_name payload) pr_number head_sha
      | v =>
        if truthy v then (.error "TypeError: object is not subscriptable", s)
        else (.ok none, s)
  else (.ok none, s)

/-!
## Configuration — `src/agent/config.py`

`Config` is the frozen dataclass exactly as declared in the source: it has
no `agent_max_iters` and no `agent_retry_labels` field (the handlers read
both).  `configAttr` models Python attribute lookup on a `Config`
instance: defined fields yield their value, any other name yields
`AttributeError` (modelled as `none`).
-/

/-- The frozen dataclass `Config` (`config.py` lines 7-36): its complete
field list. -/
structure Config where
  env : String
  database_path : String
  artifacts_dir : String
  workdir_root : String
  code_app_id : String
  code_app_private_key_path : String
  code_webhook_secret : String
  reviewer_app_id : String
  reviewer_app_private_key_path : String
  reviewer_webhook_secret : String
  openrouter_api_key : String
  openrouter_model : String
  openrouter_base_url : String
  openrouter_timeout_sec : Int
  openrouter_max_retries : Int
  openrouter_max_tokens : Int
  github_api_base : String
  github_api_version : String
  git_user_name : String
  git_user_email : String

/-- Python attribute lookup `getattr(cfg, name)` on a `Config` instance:
exactly the dataclass fields resolve; everything else raises
`AttributeError` (`none`). -/
def configAttr (c : Config) (name : String) : Option JVal :=
  if name = "env" then some (.jstr c.env)
  else if name = "database_path" then some (.jstr c.database_path)
  else if name = "artifacts_dir" then some (.jstr c.artifacts_dir)
  else if name = "workdir_root" then some (.jstr c.workdir_root)
  else if name = "code_app_id" then some (.jstr c.code_app_id)
  else if name = "code_app_private_key_path" then some (.jstr c.code_app_private_key_path)
  else if name = "code_webhook_secret" then some (.jstr c.code_webhook_secret)
  else if name = "reviewer_app_id" then some (.jstr c.reviewer_app_id)
  else if name = "reviewer_app_private_key_path" then some (.jstr c.reviewer_app_private_key_path)
  else if name = "reviewer_webhook_secret" then some (.jstr c.reviewer_webhook_secret)
  else if name = "openrouter_api_key" then some (.jstr c.openrouter_api_key)
  else if name = "openrouter_model" then some (.jstr c.openrouter_model)
  else if name = "openrouter_base_url" then some (.jstr c.openrouter_base_url)
  else if name = "openrouter_timeout_sec" then some (.jnum c.openrouter_timeout_sec)
  else if name = "openrouter_max_retries" then some (.jnum c.openrouter_max_retries)
  else if name = "openrouter_max_tokens" then some (.jnum c.openrouter_max_tokens)
  else if name = "github_api_base" then some (.jstr c.github_api_base)
  else if name = "github_api_version" then some (.jstr c.github_api_version)
  else if name = "git_user_name" then some (.jstr c.git_user_name)
  else if name = "git_user_email" then some (.jstr c.git_user_email)
  else none

/-!
## Event Ingress — `src/agent/server/app.py`

`_verify_signature` and the `POST /webhook` handler.  The HMAC-SHA256
digest (`hashlib`/`hmac`, an external collaborator) is passed in as a
function `digest : secret → body → hex`; `hmac.compare_digest` is
constant-time string equality, hence plain equality here.
-/

/-- `_verify_signature(secret, body, signature)` (`app.py` lines 16-23). -/
def verify_signature (digest : String → String → String)
    (secret body signature : String) : Bool :=
  if secret = "" then true
  else if signature = "" then false
  else if !(strStartsWith signature "sha256=") then false
  else ("sha256=" ++ digest secret body) = signature

/-- An inbound `POST /webhook` request: the three headers (absent headers
are `none`; the handler reads them with default `""`), the raw body, and
the result of `request.json()` on that body. -/
structure WebReq where
  event : Option String
  delivery : Option String
  signature : Option String
  body : String
  json : Except String JVal

/-- The observable response of the webhook endpoint. -/
inductive WebResp where
  | skipped
  | accepted (job_id : Option Nat)
  | unauthorized
  | serverError (msg : String)
deriving DecidableEq

/-- The `POST /webhook` handler (`app.py` lines 43-67): duplicate-delivery
check first, then signature verification against either secret, then JSON
parse, then the Translator (called WITHOUT `retry_labels`, as in the
source), then `mark_delivery`. -/
def webhook (digest : String → String → String) (cfg : Config)
    (s : DBState) (req : WebReq) : WebResp × DBState :=
  let event := req.event.getD ""
  let delivery_id := req.delivery.getD ""
  let signature := req.signature.getD ""
  if delivery_seen s delivery_id then (.skipped, s)
  else if !(verify_signature digest cfg.code_webhook_secret req.body signature
      || verify_signature digest cfg.reviewer_webhook_secret req.body signature) then
    (.unauthorized, s)
  else
    match req.json with
    | .error e => (.serverError e, s)
    | .ok payload =>
      let r := enqueue_from_event s event payload delivery_id none
      match r.1 with
      | .error e => (.serverError e, r.2)
      | .ok jid => (.accepted jid, mark_delivery r.2 delivery_id)

/-!
## Job Handlers — `src/agent/jobs/handlers.py`

Only the store-facing and comment-facing fragments the claims are about
are embedded; GitHub REST data (PR metadata, the `Closes #n` scan) enters
as parameters resolved upstream of the embedded fragment.  Side effects
on the hosting provider are recorded as an ordered `Effect` list.
-/

/-- An externally visible GitHub side effect of a handler. -/
inductive Effect where
  | comment (repo : String) (number : Int) (body : String)
  | postReview (repo : String) (number : Int) (event : String)
deriving DecidableEq

/-- The iteration-governor fragment of `handle_fix_job` (`handlers.py`
lines 176 and 204-233): `force_retry` from the payload, iteration number
from `job.iter` or the ledger, then the cap check
`if (not force_retry) and iter_num > cfg.agent_max_iters`.  Attribute
access on `cfg` goes through `configAttr`; a `none` is the Python
`AttributeError` raised at that point.  On success returns the resolved
`iter_num` after marking the Iteration row `running`. -/
def handle_fix_cap (cfg : Config) (payload : JVal) (jobIter : Int)
    (repo : String) (issue_number : Option Int) (prNumber : Int)
    (s : DBState) : Except String Int × DBState × List Effect :=
  let force_retry := truthy (pyGet payload "agent_force_retry")
  let iter_num := if jobIter != 0 then jobIter
    else get_iteration_count s repo issue_number (some prNumber) + 1
  let runOn : DBState → Except String Int × DBState × List Effect := fun s0 =>
    (.ok iter_num,
      set_iteration_status s0 repo issue_number (some prNumber) iter_num "running", [])
  if force_retry then runOn s
  else
    match configAttr cfg "agent_max_iters" with
    | none =>
      (.error "AttributeError: Config object has no attribute agent_max_iters", s, [])
    | some mv =>
      match pyInt mv with
      | .error e => (.error e, s, [])
      | .ok max_iters =>
        if iter_num > max_iters then
          let s1 := set_iteration_status s repo issue_number (some prNumber)
            iter_num "blocked"
          match configAttr cfg "agent_retry_labels" with
          | none =>
            (.error "AttributeError: Config object has no attribute agent_retry_labels",
              s1, [])
          | some lv =>
            let labels_hint := if truthy lv then
                match lv with
                | .jarr items => String.intercalate ", " (items.map pyStr)
                | v => pyStr v
              else "retry"
            (.error "max iterations reached", s1,
              [.comment repo prNumber
                ("Max iterations reached (" ++ pyStr mv ++ "). Add label ["
                  ++ labels_hint ++ "] to retry.")])
        else runOn s

/-- One findings line of the review comment (`handlers.py` lines 392-403):
strings get a fixed low-severity wrapper, dicts are formatted from their
fields, anything else is skipped. -/
def findingLine (item : JVal) : Option String :=
  match item with
  | .jstr s => some ("- severity: low\n  file: -\n  note: " ++ s)
  | .jobj kvs =>
    some ("- severity: " ++ pyStr (pyGetD (.jobj kvs) "severity" (.jstr "low"))
      ++ "\n  file: " ++ pyStr (pyGetD (.jobj kvs) "file" (.jstr "-"))
      ++ "\n  note: " ++ pyStr (pyGetD (.jobj kvs) "note" (.jstr "")))
  | _ => none

/-- The decision fragment of `handle_review_job` (`handlers.py` lines
383-450): decision extraction and promotion, the posted comment, the API
review submission (whose errors the source swallows), and the chained
fix enqueue.  `repo`, `prNumber`, `head_sha` are the already-resolved
job keys; `payload` is the job payload re-enqueued on chaining.  The
comment body is the dedented/stripped template of lines 406-415.
Returns the coerced decision, the effect list in order, and the store. -/
def handle_review_decision (result payload : JVal) (repo : String)
    (prNumber : Int) (head_sha : String) (s : DBState) :
    String × List Effect × DBState :=
  let decision0 := pyGetD result "decision" (.jstr "fix")
  let summary := pyGetD result "summary" (.jstr "")
  let findings := pyGetD result "findings" (.jarr [])
  let ci := pyGetD result "ci" (.jstr "")
  let decision1 := pyLower (pyStr decision0)
  let ci_lower := pyLower (pyStr ci)
  let decision := if decision1 = "ok" && (ci_lower = "failed" || ci_lower = "error")
    then "fix" else decision1
  let findings_lines := match findings with
    | .jarr items => items.filterMap findingLine
    | _ => []
  let findings_block := if findings_lines.isEmpty
    then "- severity: low\n  file: -\n  note: No findings."
    else String.intercalate "\n" findings_lines
  let body := "DECISION: " ++ (decision ++ ("\nSUMMARY: " ++ (pyStr summary
    ++ ("\nCI: " ++ (pyStr ci ++ ("\n\nFINDINGS:\n" ++ findings_block))))))
  let reviewEffs : List Effect :=
    if decision = "ok" &&
        (ci_lower = "success" || ci_lower = "passed" || ci_lower = "ok")
    then [.postReview repo prNumber "APPROVE"]
    else if decision ≠ "ok" then [.postReview repo prNumber "REQUEST_CHANGES"]
    else []
  let s1 :=
    if decision ≠ "ok" then
      if !(has_active_job s "fix" repo (some prNumber) none) then
        let iter_num := get_iteration_count s repo none (some prNumber) + 1
        let sA := set_iteration_status s repo none (some prNumber) iter_num "queued"
        (enqueue_job sA "fix" payload (some repo) none (some prNumber)
          (some head_sha) (some iter_num) none).2
      else s
    else s
  (decision, [Effect.comment repo prNumber body] ++ reviewEffs, s1)

/-!
## Worker Loop and whole-system transitions — `src/agent/worker/runner.py`

One loop iteration of `run_worker` is: `fetch_next_job`; if a job is
found, `update_job_status(running)`, dispatch to a handler, then
`update_job_status(done)` on return or `update_job_status(failed, err)`
on exception.  The handlers' own database writes are calls to
`enqueue_job` and `set_iteration_status` only (`handlers.py`: the review
handler chains a fix job, the fix handler appends Iteration rows; no
handler calls `update_job_status`).  A system state is the database plus
the worker's position inside its loop iteration; system actions are an
ingress request, the worker picking a job, or the worker finishing the
dispatched job after its handler performed some writes.
-/

/-- A database write a job handler may perform while running
(`handlers.py` uses exactly `db.enqueue_job` and
`db.set_iteration_status`). -/
inductive HandlerOp where
  | enq (kind : String) (payload : JVal) (repo : Option String)
      (issue_number pr_number : Option Int) (head_sha : Option String)
      (iter_num : Option Int) (delivery_id : Option String)
  | setIter (repo : String) (issue_number pr_number : Option Int)
      (iter_num : Int) (status : String)

/-- Apply one handler write to the store. -/
def applyOp (s : DBState) : HandlerOp → DBState
  | .enq kind payload repo issue pr sha it d =>
    (enqueue_job s kind payload repo issue pr sha it d).2
  | .setIter repo issue pr it st => set_iteration_status s repo issue pr it st

/-- Apply a handler's writes in order. -/
def applyOps (ops : List HandlerOp) (s : DBState) : DBState :=
  ops.foldl applyOp s

/-- The system state: the store plus the worker's position (`none` =
about to call `fetch_next_job`; `some id` = job `id` was fetched and set
`running`, its handler is executing). -/
structure SysState where
  db : DBState
  phase : Option Nat

/-- One observable system action. -/
inductive SysAct where
  | ingress (req : WebReq)
  | fetch
  | finish (ops : List HandlerOp) (ok : Bool) (err : String)

/-- The system transition function: `ingress` runs the webhook handler;
`fetch` is `runner.py` lines 24-30 (`fetch_next_job` then
`update_job_status(running)`); `finish ops ok err` is the dispatched
handler performing writes `ops` and the worker recording `done` (lines
60) or `failed` with the exception text (line 64). -/
def sysStep (digest : String → String → String) (cfg : Config)
    (σ : SysState) : SysAct → SysState
  | .ingress req => { σ with db := (webhook digest cfg σ.db req).2 }
  | .fetch =>
    match σ.phase with
    | some _ => σ
    | none =>
      match fetch_next_job σ.db with
      | none => σ
      | some j =>
        { db := update_job_status σ.db j.id "running" none, phase := some j.id }
  | .finish ops ok err =>
    match σ.phase with
    | none => σ
    | some jid =>
      let db1 := applyOps ops σ.db
      { db := update_job_status db1 jid (if ok then "done" else "failed")
          (if ok then none else some err),
        phase := none }

/-- Run a sequence of system actions. -/
def runSys (digest : String → String → String) (cfg : Config)
    (acts : List SysAct) (σ : SysState) : SysState :=
  acts.foldl (sysStep digest cfg) σ

/-- Well-formedness of a system state: job ids are below the
AUTOINCREMENT counter and pairwise distinct (primary key), and a
dispatched job exists with status `running`. -/
def WF (σ : SysState) : Prop :=
  (∀ j ∈ σ.db.jobs, j.id < σ.db.nextId) ∧
  (σ.db.jobs.map (fun j => j.id)).Nodup ∧
  (match σ.phase with
   | none => True
   | some jid => ∃ j, j ∈ σ.db.jobs ∧ j.id = jid ∧ j.status = "running")

/-- The status edges of the job lifecycle: stay, `queued → running`, or
`running → done/failed`. -/
def allowedEdge (a b : String) : Prop :=
  a = b ∨ (a = "queued" ∧ b = "running") ∨
    (a = "running" ∧ (b = "done" ∨ b = "failed"))

/-- One system step relates old and new job rows by id: every old row
persists under an allowed status edge, and every row without an old
counterpart is a freshly enqueued `queued` row. -/
def StepOK (σ σ2 : SysState) : Prop :=
  (∀ j ∈ σ.db.jobs, ∃ j2, j2 ∈ σ2.db.jobs ∧ j2.id = j.id ∧
    allowedEdge j.status j2.status) ∧
  (∀ j2 ∈ σ2.db.jobs, (∃ j, j ∈ σ.db.jobs ∧ j.id = j2.id) ∨
    j2.status = "queued")

/-!
## Derived notions used by the statements
-/

/-- `fetch_next_job` in the uniform store-operation shape
`state → result × state`; the SQL behind it is a single SELECT, so the
state component is returned unchanged. -/
def fetchNextOp (s : DBState) : Option JobRow × DBState :=
  (fetch_next_job s, s)

/-- A webhook response that reports an enqueued job. -/
def respEnqueued (o : WebResp) : Prop :=
  ∃ jid, o = WebResp.accepted (some jid)

/-- One call of the translator, as the ingress layer performs it. -/
structure EvCall where
  event : String
  payload : JVal
  delivery : String
  retry : Option (List String)

/-- The state change of one translator call. -/
def evStep (s : DBState) (e : EvCall) : DBState :=
  (enqueue_from_event s e.event e.payload e.delivery e.retry).2

/-- A sequence of translator calls, in order. -/
def runEvents (evs : List EvCall) (s : DBState) : DBState :=
  evs.foldl evStep s

/-- The job rows that are review jobs for the triple `t = (repo, pr, sha)`. -/
def isReviewFor (t : String × Int × String) (j : JobRow) : Bool :=
  j.kind = "review" && j.repo = some t.1 &&
    j.pr_number = some t.2.1 && j.head_sha = some t.2.2

/-- How many review jobs for the triple `t` have ever been enqueued
(jobs are never deleted, so the table is the full history). -/
def countReview (t : String × Int × String) (s : DBState) : Nat :=
  (s.jobs.filter (isReviewFor t)).length

/-- The review-dedup invariant: at most one review job per triple, and a
triple with an enqueued review job is recorded in `review_keys`. -/
def ReviewInv (s : DBState) : Prop :=
  ∀ t, countReview t s ≤ 1 ∧ (1 ≤ countReview t s → t ∈ s.review_keys)

/-- The three possible effects of one translator call on the jobs table
and the review keys: nothing, one appended non-review job with keys
untouched, or one appended review job for a previously unseen triple
whose key is recorded in the same call. -/
def ReviewShape (s t : DBState) : Prop :=
  (t.jobs = s.jobs ∧ t.review_keys = s.review_keys) ∨
  (∃ row, t.jobs = s.jobs ++ [row] ∧ row.kind ≠ "review" ∧
    t.review_keys = s.review_keys) ∨
  (∃ row r p hsh, t.jobs = s.jobs ++ [row] ∧
    row.kind = "review" ∧ row.repo = some r ∧ row.pr_number = some p ∧
    row.head_sha = some hsh ∧ (r, p, hsh) ∉ s.review_keys ∧
    t.review_keys = (r, p, hsh) :: s.review_keys)

/-!
## Concrete sample data used by the witnesses
-/

/-- A configuration with both webhook secrets empty (verification
disabled, as `Config.load` defaults when the env vars are unset). -/
def blankConfig : Config :=
  { env := "dev", database_path := "db", artifacts_dir := "a",
    workdir_root := "w", code_app_id := "", code_app_private_key_path := "",
    code_webhook_secret := "", reviewer_app_id := "",
    reviewer_app_private_key_path := "", reviewer_webhook_secret := "",
    openrouter_api_key := "", openrouter_model := "m",
    openrouter_base_url := "u", openrouter_timeout_sec := 60,
    openrouter_max_retries := 2, openrouter_max_tokens := 2048,
    github_api_base := "g", github_api_version := "v",
    git_user_name := "n", git_user_email := "e" }

/-- A configuration with both webhook secrets set. -/
def secCfg : Config :=
  { blankConfig with code_webhook_secret := "alpha", reviewer_webhook_secret := "beta" }

/-- A stand-in HMAC hex digest (the real one lives in `hashlib`). -/
def constDigest : String → String → String := fun _ _ => "00"

/-- Payload of scenario 1 of the spec: `issues/opened` for `o/r#42`. -/
def issuePayloadD1 : JVal :=
  .jobj [("action", .jstr "opened"),
         ("repository", .jobj [("full_name", .jstr "o/r")]),
         ("issue", .jobj [("number", .jnum 42)])]

/-- A signed-off request carrying delivery id `D1`. -/
def c1Req : WebReq :=
  { event := some "issues", delivery := some "D1", signature := none,
    body := "{}", json := .ok issuePayloadD1 }

/-- The same request with the `X-GitHub-Delivery` header missing. -/
def c10Req : WebReq :=
  { c1Req with delivery := none }

/-- A queued issue job with the smaller id. -/
def c2JobA : JobRow :=
  { id := 1, kind := "issue", status := "queued", payload := .jobj [],
    repo := some "o/r", issue_number := some 42, pr_number := none,
    head_sha := none, iter := 0, delivery_id := some "D1", error := none }

/-- A queued fix job with the larger id. -/
def c2JobB : JobRow :=
  { id := 2, kind := "fix", status := "queued", payload := .jobj [],
    repo := some "o/r", issue_number := none, pr_number := some 3,
    head_sha := some "abc", iter := 1, delivery_id := none, error := none }

/-- Scenario 4 of the spec: issue id=1 queued, then fix id=2 queued. -/
def c2State : DBState :=
  { deliveries := [], jobs := [c2JobA, c2JobB], iterations := [],
    review_keys := [], nextId := 3 }

/-- Scenario 2 of the spec: `pull_request/labeled` with label
`retry-fix` on `o/r` PR #7 at sha `abc`. -/
def c5Payload : JVal :=
  .jobj [("action", .jstr "labeled"),
         ("label", .jobj [("name", .jstr "retry-fix")]),
         ("repository", .jobj [("full_name", .jstr "o/r")]),
         ("pull_request", .jobj [("number", .jnum 7),
                                 ("head", .jobj [("sha", .jstr "abc")])])]

/-- The scenario 2 request at the webhook. -/
def c5Req : WebReq :=
  { event := some "pull_request", delivery := some "D2", signature := none,
    body := "{}", json := .ok c5Payload }

/-- A request with an invalid signature whose delivery id was already
seen. -/
def c6Req : WebReq :=
  { event := some "issues", delivery := some "D1",
    signature := some "sha256=bogus", body := "{}",
    json := .ok issuePayloadD1 }

/-- A store that has already consumed delivery `D1`. -/
def c6State : DBState :=
  { deliveries := ["D1"], jobs := [], iterations := [], review_keys := [],
    nextId := 1 }

/-- The same invalid-signature request with a fresh delivery id. -/
def c6ReqFresh : WebReq :=
  { c6Req with delivery := some "D9" }

/-- A reviewer-agent result with decision `ok` but failed CI. -/
def c7Result : JVal :=
  .jobj [("decision", .jstr "ok"), ("ci", .jstr "failed"),
         ("summary", .jstr "looks fine")]

/-- Scenario 3 of the spec: `check_suite/completed` for `o/r` PR #9 at
sha `abc`. -/
def c3Payload : JVal :=
  .jobj [("action", .jstr "completed"),
         ("repository", .jobj [("full_name", .jstr "o/r")]),
         ("pull_requests", .jarr [.jobj [("number", .jnum 9),
                                         ("head", .jobj [("sha", .jstr "abc")])]]),
         ("check_suite", .jobj [("head_sha", .jstr "abc")])]

/-- The scenario 3 event as a translator call. -/
def c3Ev : EvCall :=
  { event := "check_suite", payload := c3Payload, delivery := "D3",
    retry := none }

/-- A store in which `(o/r, 9, abc)` already has its ReviewKey row. -/
def c3SeenState : DBState :=
  { deliveries := ["D3x"], jobs := [], iterations := [],
    review_keys := [("o/r", 9, "abc")], nextId := 1 }

/-- A well-formed system state: the scenario 4 store, worker idle. -/
def c8Sys : SysState :=
  { db := c2State, phase := none }

/-- The jobs table only grows by fresh queued rows: every code path of
the translator, the webhook and the handlers touches the `jobs` table
only through `enqueue_job`, which appends a `queued` row with a fresh
id.  `JobsExtend s t` captures the effect on the jobs table of any such
composite operation. -/
def JobsExtend (s t : DBState) : Prop :=
  s.nextId ≤ t.nextId ∧
  ∃ tail, t.jobs = s.jobs ++ tail ∧
    (∀ j ∈ tail, j.status = "queued" ∧ s.nextId ≤ j.id ∧ j.id < t.nextId) ∧
    List.Pairwise (fun a b => a.id < b.id) tail

/-- Non-strict lexicographic comparison of sort keys. -/
def keyLe (a b : Nat × Nat) : Prop :=
  a.1 < b.1 ∨ (a.1 = b.1 ∧ a.2 ≤ b.2)

/-!
## Frame lemmas for the store operations
-/

theorem mark_delivery_jobs (s : DBState) (d : String) :
    (mark_delivery s d).jobs = s.jobs := by
  unfold mark_delivery; split <;> rfl

theorem mark_delivery_nextId (s : DBState) (d : String) :
    (mark_delivery s d).nextId = s.nextId := by
  unfold mark_delivery; split <;> rfl

theorem mark_delivery_iterations (s : DBState) (d : String) :
    (mark_delivery s d).iterations = s.iterations := by
  unfold mark_delivery; split <;> rfl

theorem mark_delivery_review_keys (s : DBState) (d : String) :
    (mark_delivery s d).review_keys = s.review_keys := by
  unfold mark_delivery; split <;> rfl

theorem mark_delivery_mem (s : DBState) (d : String) :
    d ∈ (mark_delivery s d).deliveries := by
  unfold mark_delivery; split
  case isTrue h => exact h
  case isFalse h => exact List.mem_cons_self _ _

theorem mark_review_jobs (s : DBState) (r : String) (p : Int) (h : String) :
    (mark_review s r p h).jobs = s.jobs := by
  unfold mark_review; split <;> rfl

theorem mark_review_nextId (s : DBState) (r : String) (p : Int) (h : String) :
    (mark_review s r p h).nextId = s.nextId := by
  unfold mark_review; split <;> rfl

theorem mark_review_deliveries (s : DBState) (r : String) (p : Int) (h : String) :
    (mark_review s r p h).deliveries = s.deliveries := by
  unfold mark_review; split <;> rfl

theorem mark_review_iterations (s : DBState) (r : String) (p : Int) (h : String) :
    (mark_review s r p h).iterations = s.iterations := by
  unfold mark_review; split <;> rfl

theorem mark_review_mem (s : DBState) (r : String) (p : Int) (h : String) :
    (r, p, h) ∈ (mark_review s r p h).review_keys := by
  unfold mark_review; split
  case isTrue hm => exact hm
  case isFalse hm => exact List.mem_cons_self _ _

theorem mark_review_keys_mono (s : DBState) (r : String) (p : Int) (h : String) :
    ∀ t ∈ s.review_keys, t ∈ (mark_review s r p h).review_keys := by
  intro t ht; unfold mark_review; split
  case isTrue hm => exact ht
  case isFalse hm => exact List.mem_cons_of_mem _ ht

/-!
## `JobsExtend`: the jobs table only grows by fresh queued rows

Every code path of the translator, the webhook and the handlers touches
the `jobs` table only through `enqueue_job`, which appends a `queued` row
with a fresh id.  `JobsExtend s t` captures the effect on the jobs table
of any such composite operation.
-/

theorem JE_refl (s : DBState) : JobsExtend s s :=
  ⟨le_refl _, [], by simp, by simp, by simp⟩

theorem JE_trans {s t u : DBState} (h1 : JobsExtend s t) (h2 : JobsExtend t u) :
    JobsExtend s u := by
  obtain ⟨hn1, t1, he1, hq1, hp1⟩ := h1
  obtain ⟨hn2, t2, he2, hq2, hp2⟩ := h2
  refine ⟨le_trans hn1 hn2, t1 ++ t2, by rw [he2, he1, List.append_assoc], ?_, ?_⟩
  · intro j hj
    rcases List.mem_append.mp hj with hj1 | hj2
    · obtain ⟨ha, hb, hc⟩ := hq1 j hj1
      exact ⟨ha, hb, lt_of_lt_of_le hc hn2⟩
    · obtain ⟨ha, hb, hc⟩ := hq2 j hj2
      exact ⟨ha, le_trans hn1 hb, hc⟩
  · refine List.pairwise_append.mpr ⟨hp1, hp2, ?_⟩
    intro a ha b hb
    exact lt_of_lt_of_le (hq1 a ha).2.2 (hq2 b hb).2.1

theorem JE_enqueue (s : DBState) (k : String) (p : JVal) (r : Option String)
    (i pr : Option Int) (h : Option String) (it : Option Int)
    (d : Option String) : JobsExtend s (enqueue_job s k p r i pr h it d).2 := by
  refine ⟨by simp [enqueue_job],
    [{ id := s.nextId, kind := k, status := "queued", payload := p, repo := r,
       issue_number := i, pr_number := pr, head_sha := h, iter := it.getD 0,
       delivery_id := d, error := none }], by simp [enqueue_job], ?_, by simp⟩
  intro j hj
  simp only [List.mem_singleton] at hj
  subst hj
  simp [enqueue_job]

theorem JE_setIter (s : DBState) (r : String) (i p : Option Int) (n : Int)
    (st : String) : JobsExtend s (set_iteration_status s r i p n st) :=
  ⟨le_refl _, [], by simp [set_iteration_status], by simp, by simp⟩

theorem JE_mark_review (s : DBState) (r : String) (p : Int) (h : String) :
    JobsExtend s (mark_review s r p h) :=
  ⟨le_of_eq (mark_review_nextId s r p h).symm, [],
    by rw [mark_review_jobs]; simp, by simp, by simp⟩

theorem JE_mark_delivery (s : DBState) (d : String) :
    JobsExtend s (mark_delivery s d) :=
  ⟨le_of_eq (mark_delivery_nextId s d).symm, [],
    by rw [mark_delivery_jobs]; simp, by simp, by simp⟩

theorem JE_enqueue_r {s t : DBState} (h : JobsExtend s t) (k : String)
    (p : JVal) (r : Option String) (i pr : Option Int) (hs : Option String)
    (it : Option Int) (d : Option String) :
    JobsExtend s (enqueue_job t k p r i pr hs it d).2 :=
  JE_trans h (JE_enqueue t k p r i pr hs it d)

theorem JE_setIter_r {s t : DBState} (h : JobsExtend s t) (r : String)
    (i p : Option Int) (n : Int) (st : String) :
    JobsExtend s (set_iteration_status t r i p n st) :=
  JE_trans h (JE_setIter t r i p n st)

theorem JE_mark_review_r {s t : DBState} (h : JobsExtend s t) (r : String)
    (p : Int) (hs : String) : JobsExtend s (mark_review t r p hs) :=
  JE_trans h (JE_mark_review t r p hs)

theorem JE_mark_delivery_r {s t : DBState} (h : JobsExtend s t) (d : String) :
    JobsExtend s (mark_delivery t d) :=
  JE_trans h (JE_mark_delivery t d)

/-- The translator only appends fresh queued jobs, on every path. -/
theorem enqueue_from_event_extends (s : DBState) (event : String)
    (payload : JVal) (did : String) (rls : Option (List String)) :
    JobsExtend s (enqueue_from_event s event payload did rls).2 := by
  simp only [enqueue_from_event, enqueue_review]
  repeat' split
  all_goals
    first
    | exact JE_refl _
    | exact JE_mark_review_r (JE_enqueue _ _ _ _ _ _ _ _ _) _ _ _
    | exact JE_enqueue_r (JE_setIter _ _ _ _ _ _) _ _ _ _ _ _ _ _
    | exact JE_enqueue _ _ _ _ _ _ _ _ _

/-- The webhook handler only appends fresh queued jobs. -/
theorem webhook_extends (digest : String → String → String) (cfg : Config)
    (s : DBState) (req : WebReq) :
    JobsExtend s (webhook digest cfg s req).2 := by
  simp only [webhook]
  repeat' split
  all_goals
    first
    | exact JE_refl _
    | exact enqueue_from_event_extends _ _ _ _ _
    | exact JE_mark_delivery_r (enqueue_from_event_extends _ _ _ _ _) _

/-!
## Minimum selection of `fetch_next_job`
-/

theorem keyLe_refl (a : Nat × Nat) : keyLe a a := by unfold keyLe; omega

theorem keyLe_trans {a b c : Nat × Nat} (h1 : keyLe a b) (h2 : keyLe b c) :
    keyLe a c := by unfold keyLe at *; omega

theorem keyLt_of_keyLe_ne {a b : Nat × Nat} (h1 : keyLe a b) (h2 : a ≠ b) :
    keyLt a b := by
  have h3 : ¬(a.1 = b.1 ∧ a.2 = b.2) := by
    intro hc
    exact h2 (Prod.ext_iff.mpr hc)
  unfold keyLe at h1
  unfold keyLt
  omega

theorem betterJob_eq_or (a b : JobRow) :
    betterJob a b = a ∨ betterJob a b = b := by
  unfold betterJob; split
  · right; rfl
  · left; rfl

theorem betterJob_le_left (a b : JobRow) :
    keyLe (jobKey (betterJob a b)) (jobKey a) := by
  unfold betterJob; split
  case isTrue h => unfold keyLt at h; unfold keyLe; omega
  case isFalse h => exact keyLe_refl _

theorem betterJob_le_right (a b : JobRow) :
    keyLe (jobKey (betterJob a b)) (jobKey b) := by
  unfold betterJob; split
  case isTrue h => exact keyLe_refl _
  case isFalse h => unfold keyLt at h; unfold keyLe; omega

theorem foldl_betterJob_mem (l : List JobRow) :
    ∀ j, l.foldl betterJob j = j ∨ l.foldl betterJob j ∈ l := by
  induction l with
  | nil => intro j; simp
  | cons x xs ih =>
    intro j
    simp only [List.foldl_cons]
    rcases ih (betterJob j x) with h | h
    · rcases betterJob_eq_or j x with h2 | h2
      · left; rw [h, h2]
      · right; rw [h, h2]; exact List.mem_cons_self _ _
    · right; exact List.mem_cons_of_mem _ h

theorem foldl_betterJob_le (l : List JobRow) :
    ∀ j, keyLe (jobKey (l.foldl betterJob j)) (jobKey j) ∧
      ∀ x ∈ l, keyLe (jobKey (l.foldl betterJob j)) (jobKey x) := by
  induction l with
  | nil => intro j; exact ⟨keyLe_refl _, by simp⟩
  | cons x xs ih =>
    intro j
    have h := ih (betterJob j x)
    refine ⟨keyLe_trans h.1 (betterJob_le_left j x), ?_⟩
    intro y hy
    rcases List.mem_cons.mp hy with rfl | hy2
    · exact keyLe_trans h.1 (betterJob_le_right j y)
    · exact h.2 y hy2

/-- What `fetch_next_job` returns is a queued job of the table, minimal
under the `(kind-priority, id)` order among all queued jobs. -/
theorem fetch_next_job_spec (s : DBState) (j : JobRow)
    (h : fetch_next_job s = some j) :
    j ∈ s.jobs ∧ j.status = "queued" ∧
      ∀ x ∈ s.jobs, x.status = "queued" → keyLe (jobKey j) (jobKey x) := by
  unfold fetch_next_job at h
  rcases hm : s.jobs.filter (fun j => j.status = "queued") with _ | ⟨a, rest⟩
  · rw [hm] at h; exact absurd h (by simp)
  · rw [hm] at h
    simp only [Option.some.injEq] at h
    have hfilter : ∀ x : JobRow, x ∈ a :: rest ↔ x ∈ s.jobs ∧ x.status = "queued" := by
      intro x
      rw [← hm, List.mem_filter]
      simp
    have hmem : j ∈ a :: rest := by
      rw [← h]
      rcases foldl_betterJob_mem rest a with h2 | h2
      · rw [h2]; exact List.mem_cons_self _ _
      · exact List.mem_cons_of_mem _ h2
    have hmain := (hfilter j).mp hmem
    refine ⟨hmain.1, hmain.2, ?_⟩
    intro x hx hxq
    have hxl : x ∈ a :: rest := (hfilter x).mpr ⟨hx, hxq⟩
    have hle := foldl_betterJob_le rest a
    rcases List.mem_cons.mp hxl with rfl | hx2
    · rw [← h]; exact hle.1
    · rw [← h]; exact hle.2 x hx2

/-- When some queued job exists, `fetch_next_job` returns one. -/
theorem fetch_next_job_isSome (s : DBState) (j0 : JobRow)
    (hmem : j0 ∈ s.jobs) (hq : j0.status = "queued") :
    ∃ jm, fetch_next_job s = some jm := by
  unfold fetch_next_job
  have hj0 : j0 ∈ s.jobs.filter (fun j => j.status = "queued") := by
    rw [List.mem_filter]
    simp [hmem, hq]
  rcases hm : s.jobs.filter (fun j => j.status = "queued") with _ | ⟨a, rest⟩
  · rw [hm] at hj0; exact absurd hj0 (List.not_mem_nil _)
  · rw [hm]; exact ⟨rest.foldl betterJob a, rfl⟩

/-!
## Claim theorems
-/

/-- C9: `fetch_next_job` is read-only — in the uniform operation shape it
returns the store unchanged (no write to any of the four tables), the
returned job is still `queued`, and a second consecutive call with no
intervening write returns the same job. -/
theorem fetch_next_read_only (s : DBState) :
    (fetchNextOp s).2 = s ∧
    (∀ j, (fetchNextOp s).1 = some j → j.status = "queued") ∧
    (fetchNextOp ((fetchNextOp s).2)).1 = (fetchNextOp s).1 := by
  refine ⟨rfl, ?_, rfl⟩
  intro j hj
  exact (fetch_next_job_spec s j hj).2.1

/-- C9 witness: the operation on a concrete store. -/
theorem fetch_next_read_only_witness :
    (fetchNextOp c2State).2 = c2State ∧
    (∀ j, (fetchNextOp c2State).1 = some j → j.status = "queued") ∧
    (fetchNextOp ((fetchNextOp c2State).2)).1 = (fetchNextOp c2State).1 :=
  fetch_next_read_only c2State

/-- C4: the iteration-cap fragment of the fix handler raises
`AttributeError` for every job whose payload does not set
`agent_force_retry`: `Config` declares no `agent_max_iters` field, so the
cap check at `handlers.py` line 208 fails before comparing, the job fails
with that error, and no `blocked` Iteration row and no comment are
produced (the store is returned unchanged and the effect list is empty). -/
theorem fix_cap_attribute_error (cfg : Config) (payload : JVal)
    (jobIter : Int) (repo : String) (issue_number : Option Int)
    (prNumber : Int) (s : DBState)
    (h : truthy (pyGet payload "agent_force_retry") = false) :
    handle_fix_cap cfg payload jobIter repo issue_number prNumber s =
      (.error "AttributeError: Config object has no attribute agent_max_iters",
        s, []) := by
  have hattr : configAttr cfg "agent_max_iters" = none := rfl
  simp [handle_fix_cap, h, hattr]

/-- C4 witness: scenario 5 of the spec (fix job, iteration 4, no force
retry) hits the `AttributeError`, not the cap logic. -/
theorem fix_cap_attribute_error_witness :
    handle_fix_cap blankConfig (.jobj []) 4 "o/r" none 11 initDB =
      (.error "AttributeError: Config object has no attribute agent_max_iters",
        initDB, []) :=
  fix_cap_attribute_error blankConfig (.jobj []) 4 "o/r" none 11 initDB rfl

/-- C6 counterexample: a request whose signature matches neither of the
two non-empty secrets but whose delivery id was already seen is answered
`{status: skipped}`, not 401 — the duplicate check at `app.py` line 50
runs before signature verification, refuting "the 401 applies regardless
of whether the delivery_id has been seen before". -/
theorem signature_skip_counterexample :
    verify_signature constDigest secCfg.code_webhook_secret c6Req.body
      (c6Req.signature.getD "") = false ∧
    verify_signature constDigest secCfg.reviewer_webhook_secret c6Req.body
      (c6Req.signature.getD "") = false ∧
    secCfg.code_webhook_secret ≠ "" ∧ secCfg.reviewer_webhook_secret ≠ "" ∧
    delivery_seen c6State (c6Req.delivery.getD "") = true ∧
    webhook constDigest secCfg c6State c6Req = (.skipped, c6State) := by
  refine ⟨rfl, rfl, ?_, ?_, rfl, rfl⟩
  · rw [show secCfg.code_webhook_secret = "alpha" from rfl]
    decide
  · rw [show secCfg.reviewer_webhook_secret = "beta" from rfl]
    decide

/-- C6 (amended): a request whose signature matches neither configured
non-empty secret is answered 401 with no side effects, provided its
delivery id has not been seen; an empty secret disables verification for
that role.  (A previously seen delivery id is answered
`{status: skipped}` before the signature is checked.) -/
theorem signature_reject_amended (digest : String → String → String)
    (cfg : Config) (s : DBState) (req : WebReq)
    (hseen : delivery_seen s (req.delivery.getD "") = false)
    (h1 : verify_signature digest cfg.code_webhook_secret req.body
      (req.signature.getD "") = false)
    (h2 : verify_signature digest cfg.reviewer_webhook_secret req.body
      (req.signature.getD "") = false) :
    webhook digest cfg s req = (.unauthorized, s) ∧
    (∀ sec b sig, sec = "" → verify_signature digest sec b sig = true) := by
  constructor
  · simp [webhook, hseen, h1, h2]
  · intro sec b sig hsec
    simp [verify_signature, hsec]

/-- C6 witness: the same invalid-signature request with a fresh delivery
id is rejected with 401 and no state change. -/
theorem signature_reject_amended_witness :
    webhook constDigest secCfg initDB c6ReqFresh = (.unauthorized, initDB) ∧
    (∀ sec b sig, sec = "" → verify_signature constDigest sec b sig = true) :=
  signature_reject_amended constDigest secCfg initDB c6ReqFresh rfl rfl rfl

/-- C2: on any store whose job ids are distinct (the primary key) with at
least one queued job, `fetch_next_job` returns exactly the queued job
minimal under `(kind-priority, id)`; in particular no issue job is
returned while a fix job is queued, and jobs of equal kind come out in
ascending id order. -/
theorem fetch_next_priority (s : DBState)
    (hnd : (s.jobs.map (fun j => j.id)).Nodup)
    (j0 : JobRow) (hmem0 : j0 ∈ s.jobs) (hq0 : j0.status = "queued") :
    ∃ jm, fetch_next_job s = some jm ∧ jm ∈ s.jobs ∧ jm.status = "queued" ∧
      (∀ x ∈ s.jobs, x.status = "queued" → keyLe (jobKey jm) (jobKey x)) ∧
      (∀ x ∈ s.jobs, x.status = "queued" → x ≠ jm → keyLt (jobKey jm) (jobKey x)) ∧
      (∀ f ∈ s.jobs, f.status = "queued" → f.kind = "fix" → jm.kind ≠ "issue") ∧
      (∀ x ∈ s.jobs, x.status = "queued" → x.kind = jm.kind → jm.id ≤ x.id) := by
  obtain ⟨jm, hjm⟩ := fetch_next_job_isSome s j0 hmem0 hq0
  obtain ⟨hmem, hq, hmin⟩ := fetch_next_job_spec s jm hjm
  refine ⟨jm, hjm, hmem, hq, hmin, ?_, ?_, ?_⟩
  · intro x hx hxq hne
    refine keyLt_of_keyLe_ne (hmin x hx hxq) ?_
    intro hkeq
    have hid : jm.id = x.id := congrArg Prod.snd hkeq
    have heq : jm = x := List.inj_on_of_nodup_map hnd hmem hx hid
    exact hne heq.symm
  · intro f hf hfq hfk hji
    have hle := hmin f hf hfq
    have h1 : kindPriority jm.kind = 2 := by simp [hji, kindPriority]
    have h2 : kindPriority f.kind = 0 := by simp [hfk, kindPriority]
    simp only [jobKey, keyLe] at hle
    omega
  · intro x hx hxq hk
    have hle := hmin x hx hxq
    have hp : kindPriority x.kind = kindPriority jm.kind := by rw [hk]
    simp only [jobKey, keyLe] at hle
    omega

/-- C2 witness: scenario 4 of the spec — issue id=1 and fix id=2 both
queued; the returned minimum is the fix job. -/
theorem fetch_next_priority_witness :
    ∃ jm, fetch_next_job c2State = some jm ∧ jm ∈ c2State.jobs ∧
      jm.status = "queued" ∧
      (∀ x ∈ c2State.jobs, x.status = "queued" → keyLe (jobKey jm) (jobKey x)) ∧
      (∀ x ∈ c2State.jobs, x.status = "queued" → x ≠ jm →
        keyLt (jobKey jm) (jobKey x)) ∧
      (∀ f ∈ c2State.jobs, f.status = "queued" → f.kind = "fix" →
        jm.kind ≠ "issue") ∧
      (∀ x ∈ c2State.jobs, x.status = "queued" → x.kind = jm.kind →
        jm.id ≤ x.id) :=
  fetch_next_priority c2State (by decide) c2JobA
    (List.mem_cons_self c2JobA [c2JobB]) rfl

/-- An `accepted` response implies the request's delivery id is in the
deliveries table of the post-state (`mark_delivery` runs last). -/
theorem webhook_accepted_delivery (digest : String → String → String)
    (cfg : Config) (s : DBState) (req : WebReq) (o : WebResp) (s2 : DBState)
    (h : webhook digest cfg s req = (o, s2)) (jid : Option Nat)
    (ho : o = .accepted jid) : (req.delivery.getD "") ∈ s2.deliveries := by
  subst ho
  simp only [webhook] at h
  split at h
  · exact WebResp.noConfusion (congrArg Prod.fst h)
  · split at h
    · exact WebResp.noConfusion (congrArg Prod.fst h)
    · split at h
      · exact WebResp.noConfusion (congrArg Prod.fst h)
      · split at h
        · exact WebResp.noConfusion (congrArg Prod.fst h)
        · have h2 := congrArg Prod.snd h
          simp only at h2
          rw [← h2]
          exact mark_delivery_mem _ _

/-- A request whose delivery id is already recorded is skipped with no
state change, before any other check. -/
theorem webhook_seen_skipped (digest : String → String → String)
    (cfg : Config) (s : DBState) (req : WebReq)
    (h : delivery_seen s (req.delivery.getD "") = true) :
    webhook digest cfg s req = (.skipped, s) := by
  simp [webhook, h]

/-- C1: two webhook requests with the same delivery id processed in
sequence: if the first is accepted, the second is answered
`{status: skipped}` with no side effects at all, and in no case do both
requests enqueue a job. -/
theorem delivery_dedup_pair (digest : String → String → String)
    (cfg : Config) (s : DBState) (r1 r2 : WebReq)
    (hd : r1.delivery.getD "" = r2.delivery.getD "") :
    (∀ jid, (webhook digest cfg s r1).1 = .accepted jid →
      webhook digest cfg (webhook digest cfg s r1).2 r2 =
        (.skipped, (webhook digest cfg s r1).2)) ∧
    ¬(respEnqueued (webhook digest cfg s r1).1 ∧
      respEnqueued (webhook digest cfg (webhook digest cfg s r1).2 r2).1) := by
  have hpart : ∀ jid, (webhook digest cfg s r1).1 = .accepted jid →
      webhook digest cfg (webhook digest cfg s r1).2 r2 =
        (.skipped, (webhook digest cfg s r1).2) := by
    intro jid h1
    have hmem : (r1.delivery.getD "") ∈ (webhook digest cfg s r1).2.deliveries :=
      webhook_accepted_delivery digest cfg s r1 ((webhook digest cfg s r1).1)
        ((webhook digest cfg s r1).2) rfl jid h1
    rw [hd] at hmem
    exact webhook_seen_skipped digest cfg _ r2 (by simpa [delivery_seen] using hmem)
  refine ⟨hpart, ?_⟩
  rintro ⟨⟨j1, e1⟩, ⟨j2, e2⟩⟩
  have hs := hpart (some j1) e1
  have hsk : (webhook digest cfg (webhook digest cfg s r1).2 r2).1 = .skipped := by
    rw [hs]
  rw [hsk] at e2
  exact WebResp.noConfusion e2

/-- C1 witness: scenario 1 of the spec — the same `issues/opened`
request with delivery `D1` twice. -/
theorem delivery_dedup_pair_witness :
    (∀ jid, (webhook constDigest blankConfig initDB c1Req).1 = .accepted jid →
      webhook constDigest blankConfig (webhook constDigest blankConfig initDB c1Req).2 c1Req =
        (.skipped, (webhook constDigest blankConfig initDB c1Req).2)) ∧
    ¬(respEnqueued (webhook constDigest blankConfig initDB c1Req).1 ∧
      respEnqueued (webhook constDigest blankConfig
        (webhook constDigest blankConfig initDB c1Req).2 c1Req).1) :=
  delivery_dedup_pair constDigest blankConfig initDB c1Req c1Req rfl

/-- C10: a request without the `X-GitHub-Delivery` header runs with
delivery id `""`; once such a request completes as accepted, `""` is
marked, and every later headerless request is answered
`{status: skipped}` with no state change, whatever its content. -/
theorem missing_delivery_header (digest : String → String → String)
    (cfg : Config) (s : DBState) (r1 r2 : WebReq)
    (h1 : r1.delivery = none) (h2 : r2.delivery = none) (jid : Option Nat)
    (hacc : (webhook digest cfg s r1).1 = .accepted jid) :
    "" ∈ (webhook digest cfg s r1).2.deliveries ∧
    webhook digest cfg (webhook digest cfg s r1).2 r2 =
      (.skipped, (webhook digest cfg s r1).2) := by
  have hmem := webhook_accepted_delivery digest cfg s r1
    ((webhook digest cfg s r1).1) ((webhook digest cfg s r1).2) rfl jid hacc
  rw [h1] at hmem
  simp only [Option.getD_none] at hmem
  refine ⟨hmem, ?_⟩
  apply webhook_seen_skipped
  rw [h2]
  simpa [delivery_seen] using hmem

/-- C10 witness: the headerless issue request accepted once, then
skipped. -/
theorem missing_delivery_header_witness :
    "" ∈ (webhook constDigest blankConfig initDB c10Req).2.deliveries ∧
    webhook constDigest blankConfig
        (webhook constDigest blankConfig initDB c10Req).2 c10Req =
      (.skipped, (webhook constDigest blankConfig initDB c10Req).2) :=
  missing_delivery_header constDigest blankConfig initDB c10Req c10Req
    rfl rfl (some 1) rfl

/-- The translator's `pull_request` arm is inert when called without
`retry_labels` — exactly how `app.py` line 60 calls it. -/
theorem enqueue_pull_request_none (s : DBState) (p : JVal) (d : String) :
    enqueue_from_event s "pull_request" p d none = (.ok none, s) := by
  simp [enqueue_from_event]

/-- C5: a `pull_request` webhook request never enqueues anything and
never writes an Iteration row: the webhook calls the translator without
`retry_labels`, so the configured retry set is never consulted and the
labeled-PR fix path is dead from ingress. -/
theorem retry_label_webhook_dead (digest : String → String → String)
    (cfg : Config) (s : DBState) (req : WebReq)
    (h : req.event = some "pull_request") :
    (webhook digest cfg s req).2.jobs = s.jobs ∧
    (webhook digest cfg s req).2.iterations = s.iterations ∧
    (∀ jid, (webhook digest cfg s req).1 = .accepted jid → jid = none) := by
  simp only [webhook, h, Option.getD_some, enqueue_pull_request_none]
  repeat' split
  all_goals
    simp [mark_delivery_jobs, mark_delivery_iterations]

/-- C5 witness: scenario 2 of the spec (labeled PR #7 with configured
label `retry-fix`) — the webhook accepts but enqueues nothing. -/
theorem retry_label_webhook_dead_witness :
    (webhook constDigest blankConfig initDB c5Req).2.jobs = initDB.jobs ∧
    (webhook constDigest blankConfig initDB c5Req).2.iterations = initDB.iterations ∧
    (∀ jid, (webhook constDigest blankConfig initDB c5Req).1 = .accepted jid →
      jid = none) :=
  retry_label_webhook_dead constDigest blankConfig initDB c5Req rfl

/-- C7: when the reviewer returns decision `ok` with CI `failed`/`error`,
the observable decision is `fix`: the posted comment opens with
`DECISION: fix`, a `REQUEST_CHANGES` review (not APPROVE) is attempted,
and — absent an active fix job — a fix job with the next iteration
number is enqueued together with a queued Iteration row. -/
theorem decision_promotion (result payload : JVal) (repo : String)
    (prNumber : Int) (head_sha : String) (s : DBState)
    (h1 : pyGetD result "decision" (.jstr "fix") = .jstr "ok")
    (h2 : pyLower (pyStr (pyGetD result "ci" (.jstr ""))) = "failed" ∨
      pyLower (pyStr (pyGetD result "ci" (.jstr ""))) = "error") :
    (handle_review_decision result payload repo prNumber head_sha s).1 = "fix" ∧
    (∃ rest, (handle_review_decision result payload repo prNumber head_sha s).2.1 =
      [Effect.comment repo prNumber ("DECISION: fix" ++ rest),
       Effect.postReview repo prNumber "REQUEST_CHANGES"]) ∧
    (has_active_job s "fix" repo (some prNumber) none = false →
      (handle_review_decision result payload repo prNumber head_sha s).2.2.jobs =
        s.jobs ++
          [{ id := s.nextId, kind := "fix", status := "queued",
             payload := payload, repo := some repo, issue_number := none,
             pr_number := some prNumber, head_sha := some head_sha,
             iter := get_iteration_count s repo none (some prNumber) + 1,
             delivery_id := none, error := none }] ∧
      (handle_review_decision result payload repo prNumber head_sha s).2.2.iterations =
        s.iterations ++
          [{ repo := repo, issue_number := none,
             pr_number := some prNumber,
             iter := get_iteration_count s repo none (some prNumber) + 1,
             status := "queued" }]) := by
  have hok : pyLower (pyStr (JVal.jstr "ok")) = "ok" := rfl
  cases h2 with
  | inl h2 =>
    simp [handle_review_decision, h1, hok, h2, enqueue_job, set_iteration_status]
    refine ⟨⟨_, by rw [← String.append_assoc]; rfl⟩, ?_⟩
    intro hact
    simp [hact]
  | inr h2 =>
    simp [handle_review_decision, h1, hok, h2, enqueue_job, set_iteration_status]
    refine ⟨⟨_, by rw [← String.append_assoc]; rfl⟩, ?_⟩
    intro hact
    simp [hact]

/-- C7 witness: a concrete `ok`/`failed` reviewer result is promoted to
decision `fix`. -/
theorem decision_promotion_witness :
    (handle_review_decision c7Result (.jobj []) "o/r" 7 "abc" initDB).1 = "fix" :=
  (decision_promotion c7Result (.jobj []) "o/r" 7 "abc" initDB rfl (Or.inl rfl)).1

/-!
## Review dedup (C3): per-step shape of the translator
-/

/-- A successful `int(x)` determines the INTEGER-affinity stored value. -/
theorem pyInt_storedInt {v : JVal} {n : Int} (h : pyInt v = .ok n) :
    storedInt v = some n := by
  cases v with
  | jnum m => simp [pyInt] at h; simp [storedInt, h]
  | jbool b => simp [pyInt] at h; simp [storedInt, ← h]
  | jstr s =>
    simp only [pyInt] at h
    rcases hm : s.trim.toInt? with _ | m
    · rw [hm] at h; exact absurd h (by simp)
    · rw [hm] at h
      simp only [Except.ok.injEq] at h
      simp [storedInt, hm, h]
  | null => simp [pyInt] at h
  | jarr xs => simp [pyInt] at h
  | jobj kvs => simp [pyInt] at h

/-- A successful TEXT binding determines the TEXT-affinity stored value. -/
theorem bindText_ok {v : JVal} {r : String} (h : bindText v = .ok r) :
    storedText v = some r := by
  unfold bindText at h
  rcases hm : storedText v with _ | t
  · rw [hm] at h; exact absurd h (by simp)
  · rw [hm] at h
    simp only [Except.ok.injEq] at h
    rw [h]

theorem countReview_jobs_eq {s t : DBState} (h : t.jobs = s.jobs)
    (tr : String × Int × String) : countReview tr t = countReview tr s := by
  simp [countReview, h]

theorem countReview_append_row {s t : DBState} {row : JobRow}
    (h : t.jobs = s.jobs ++ [row]) (tr : String × Int × String) :
    countReview tr t = countReview tr s + (if isReviewFor tr row then 1 else 0) := by
  cases hp : isReviewFor tr row <;>
    simp [countReview, h, List.filter_append, hp]

theorem isReviewFor_false_of_kind {row : JobRow} (hk : row.kind ≠ "review")
    (tr : String × Int × String) : isReviewFor tr row = false := by
  simp [isReviewFor, hk]

theorem isReviewFor_iff {row : JobRow} {r : String} {p : Int} {hsh : String}
    (hk : row.kind = "review") (hr : row.repo = some r)
    (hp : row.pr_number = some p) (hh : row.head_sha = some hsh)
    (tr : String × Int × String) :
    isReviewFor tr row = true ↔ tr = (r, p, hsh) := by
  obtain ⟨t1, t2, t3⟩ := tr
  simp [isReviewFor, hk, hr, hp, hh, Prod.ext_iff]
  constructor
  · rintro ⟨⟨h1, h2⟩, h3⟩
    exact ⟨h1.symm, h2.symm, h3.symm⟩
  · rintro ⟨h1, h2, h3⟩
    exact ⟨⟨h1.symm, h2.symm⟩, h3.symm⟩

/-- The one review-enqueuing shape shared by the three review arms of
`enqueue_from_event`: the guard passed, one review row is appended and
its (stored) triple is marked immediately after. -/
theorem review_leaf_shape (s : DBState) (payload : JVal) (did : String)
    (rArg : Option String) (pArg : Option Int) (hArg : Option String)
    (repoS : String) (prn : Int) (shaS : String)
    (hr : rArg = some repoS) (hp : pArg = some prn) (hh : hArg = some shaS)
    (hseen : ¬(review_seen s repoS prn shaS = true)) :
    ∃ row r p hsh,
      (mark_review (enqueue_job s "review" payload rArg none pArg hArg none
        (some did)).2 repoS prn shaS).jobs = s.jobs ++ [row] ∧
      row.kind = "review" ∧ row.repo = some r ∧ row.pr_number = some p ∧
      row.head_sha = some hsh ∧ (r, p, hsh) ∉ s.review_keys ∧
      (mark_review (enqueue_job s "review" payload rArg none pArg hArg none
        (some did)).2 repoS prn shaS).review_keys =
        (r, p, hsh) :: s.review_keys := by
  have hmemn : (repoS, prn, shaS) ∉ s.review_keys := by
    simpa [review_seen] using hseen
  refine ⟨{ id := s.nextId, kind := "review", status := "queued",
            payload := payload, repo := rArg, issue_number := none,
            pr_number := pArg, head_sha := hArg, iter := 0,
            delivery_id := some did, error := none },
          repoS, prn, shaS, ?_, rfl, hr, hp, hh, hmemn, ?_⟩
  · rw [mark_review_jobs]
    rfl
  · simp [mark_review, enqueue_job, hmemn]

/-- Per-call shape of the translator with respect to review jobs and
review keys: either nothing relevant changes, or one non-review job is
appended, or one review job for an unseen triple is appended and that
triple is recorded. -/
theorem evStep_shape (s : DBState) (e : EvCall) :
    ReviewShape s (evStep s e) := by
  simp only [evStep, enqueue_from_event, enqueue_review]
  repeat' split
  all_goals
    first
    | exact Or.inl ⟨rfl, rfl⟩
    | (refine Or.inr (Or.inl ⟨_, rfl, ?_, rfl⟩)
       simp)
    | (refine Or.inr (Or.inr (review_leaf_shape _ _ _ _ _ _ _ _ _ ?_ ?_ ?_ ?_)) <;>
        first
        | rfl
        | assumption
        | exact bindText_ok (by assumption)
        | exact pyInt_storedInt (by assumption))

/-- Per-call counting: review keys only grow, and the review count of a
triple is unchanged or grows by one — the latter only for a triple that
was unseen and is recorded in the same call. -/
theorem evStep_count (s : DBState) (e : EvCall) (tr : String × Int × String) :
    (tr ∈ s.review_keys → tr ∈ (evStep s e).review_keys) ∧
    (countReview tr (evStep s e) = countReview tr s ∨
      (countReview tr (evStep s e) = countReview tr s + 1 ∧
        tr ∉ s.review_keys ∧ tr ∈ (evStep s e).review_keys)) := by
  have hshape := evStep_shape s e
  unfold ReviewShape at hshape
  rcases hshape with ⟨hj, hk⟩ | ⟨row, hj, hkind, hk⟩ |
    ⟨row, r, p, hsh, hj, hkind, hrepo, hpr, hsha, hnot, hk⟩
  · exact ⟨fun ht => by rw [hk]; exact ht, Or.inl (countReview_jobs_eq hj tr)⟩
  · refine ⟨fun ht => by rw [hk]; exact ht, Or.inl ?_⟩
    rw [countReview_append_row hj, isReviewFor_false_of_kind hkind]
    simp
  · refine ⟨fun ht => by rw [hk]; exact List.mem_cons_of_mem _ ht, ?_⟩
    by_cases hEq : tr = (r, p, hsh)
    · right
      refine ⟨?_, by rw [hEq]; exact hnot, by rw [hk, hEq]; exact List.mem_cons_self _ _⟩
      rw [countReview_append_row hj,
        if_pos ((isReviewFor_iff hkind hrepo hpr hsha tr).mpr hEq)]
    · left
      have hf : ¬(isReviewFor tr row = true) :=
        fun hc => hEq ((isReviewFor_iff hkind hrepo hpr hsha tr).mp hc)
      rw [countReview_append_row hj, if_neg hf]
      simp

/-- The review-dedup invariant is preserved by any sequence of
translator calls. -/
theorem runEvents_inv (evs : List EvCall) :
    ∀ s, ReviewInv s → ReviewInv (runEvents evs s) := by
  induction evs with
  | nil => intro s h; exact h
  | cons e rest ih =>
    intro s h
    apply ih
    intro tr
    obtain ⟨hm, hstep⟩ := evStep_count s e tr
    rcases hstep with heq | ⟨hplus, hnot, hmem⟩
    · refine ⟨by rw [heq]; exact (h tr).1, ?_⟩
      intro h1
      rw [heq] at h1
      exact hm ((h tr).2 h1)
    · have hzero : countReview tr s = 0 := by
        by_contra hc
        exact hnot ((h tr).2 (Nat.one_le_iff_ne_zero.mpr hc))
      refine ⟨by rw [hplus, hzero], fun _ => hmem⟩

/-- C3: review deduplication.  (i) Starting from the empty store, any
sequence of translated events enqueues at most one review job per triple
`(repo, pr, sha)`, and any enqueued review job has its ReviewKey row.
(ii) An event whose triple is already recorded enqueues no review job
for it.  (iii) Whenever a call enqueues a review job for a triple, it is
exactly one job, the triple was unseen before the call, and the
ReviewKey row is present immediately after the same call. -/
theorem review_dedup_invariant :
    (∀ evs, ReviewInv (runEvents evs initDB)) ∧
    (∀ s e tr, tr ∈ s.review_keys →
      countReview tr (evStep s e) = countReview tr s ∧
        tr ∈ (evStep s e).review_keys) ∧
    (∀ s e tr, countReview tr s < countReview tr (evStep s e) →
      countReview tr (evStep s e) = countReview tr s + 1 ∧
        tr ∉ s.review_keys ∧ tr ∈ (evStep s e).review_keys) := by
  have h0 : ReviewInv initDB := by
    intro tr
    constructor <;> simp [countReview, initDB]
  refine ⟨fun evs => runEvents_inv evs initDB h0, ?_, ?_⟩
  · intro s e tr ht
    obtain ⟨hm, hstep⟩ := evStep_count s e tr
    rcases hstep with heq | ⟨_, hnot, _⟩
    · exact ⟨heq, hm ht⟩
    · exact absurd ht hnot
  · intro s e tr hlt
    obtain ⟨hm, hstep⟩ := evStep_count s e tr
    rcases hstep with heq | hinc
    · omega
    · exact ⟨hinc.1, hinc.2.1, hinc.2.2⟩

/-- C3 witness: with `(o/r, 9, abc)` already recorded, the scenario 3
`check_suite` event enqueues no review job for that triple. -/
theorem review_dedup_invariant_witness :
    countReview ("o/r", 9, "abc") (evStep c3SeenState c3Ev) =
      countReview ("o/r", 9, "abc") c3SeenState ∧
    ("o/r", 9, "abc") ∈ (evStep c3SeenState c3Ev).review_keys :=
  review_dedup_invariant.2.1 c3SeenState c3Ev ("o/r", 9, "abc")
    (List.mem_cons_self _ _)

/-!
## Terminal status (C8): system-step lemmas
-/

theorem JE_applyOp (s : DBState) (op : HandlerOp) :
    JobsExtend s (applyOp s op) := by
  cases op with
  | enq kind payload repo issue pr sha it d =>
    exact JE_enqueue s kind payload repo issue pr sha it d
  | setIter repo issue pr it st => exact JE_setIter s repo issue pr it st

theorem JE_applyOps (ops : List HandlerOp) :
    ∀ s, JobsExtend s (applyOps ops s) := by
  induction ops with
  | nil => intro s; exact JE_refl s
  | cons op rest ih =>
    intro s
    exact JE_trans (JE_applyOp s op) (ih (applyOp s op))

/-- What a jobs-extending composite operation does to the well-formedness
data: bounds and id-distinctness persist, old rows persist verbatim, and
rows without an old counterpart are queued. -/
theorem extend_ok {db db2 : DBState} (hext : JobsExtend db db2)
    (hbound : ∀ j ∈ db.jobs, j.id < db.nextId)
    (hnd : (db.jobs.map (fun j => j.id)).Nodup) :
    (∀ j ∈ db2.jobs, j.id < db2.nextId) ∧
    ((db2.jobs.map (fun j => j.id)).Nodup) ∧
    (∀ j ∈ db.jobs, j ∈ db2.jobs) ∧
    (∀ j2 ∈ db2.jobs, j2 ∈ db.jobs ∨
      (j2.status = "queued" ∧ db.nextId ≤ j2.id)) := by
  obtain ⟨hn, tail, hj, hq, hp⟩ := hext
  refine ⟨?_, ?_, ?_, ?_⟩
  · intro j hm
    rw [hj] at hm
    rcases List.mem_append.mp hm with hm | hm
    · exact lt_of_lt_of_le (hbound j hm) hn
    · exact (hq j hm).2.2
  · rw [hj, List.map_append, List.nodup_append]
    refine ⟨hnd, ?_, ?_⟩
    · exact (List.pairwise_map).mpr (hp.imp (fun hab => Nat.ne_of_lt hab))
    · intro a ha hb
      obtain ⟨x, hx, hxa⟩ := List.mem_map.mp ha
      obtain ⟨y, hy, hya⟩ := List.mem_map.mp hb
      have h1 := hbound x hx
      have h2 := (hq y hy).2.1
      omega
  · intro j hm
    rw [hj]
    exact List.mem_append.mpr (Or.inl hm)
  · intro j2 hm
    rw [hj] at hm
    rcases List.mem_append.mp hm with hm | hm
    · exact Or.inl hm
    · exact Or.inr ⟨(hq j2 hm).1, (hq j2 hm).2.1⟩

/-- `update_job_status` rewrites one id in place: the id multiset of the
table is untouched. -/
theorem update_ids (db : DBState) (jid : Nat) (st : String)
    (err : Option String) :
    ((update_job_status db jid st err).jobs.map (fun j => j.id)) =
      db.jobs.map (fun j => j.id) := by
  show ((db.jobs.map _).map _) = _
  rw [List.map_map]
  exact List.map_congr_left (fun x _ => by
    by_cases hx : x.id = jid <;> simp [hx])


theorem StepOK_refl (σ : SysState) : StepOK σ σ :=
  ⟨fun j hj => ⟨j, hj, rfl, Or.inl rfl⟩, fun j2 hj2 => Or.inl ⟨j2, hj2, rfl⟩⟩

theorem update_fun_id (x : JobRow) (jid : Nat) (st : String)
    (er : Option String) :
    (if x.id = jid then { x with status := st, error := er } else x).id = x.id := by
  by_cases hx : x.id = jid <;> simp [hx]

theorem update_mem_image {db : DBState} {x : JobRow} (hx : x ∈ db.jobs)
    (jid : Nat) (st : String) (er : Option String) :
    (if x.id = jid then { x with status := st, error := er } else x) ∈
      (update_job_status db jid st er).jobs :=
  List.mem_map_of_mem _ hx

theorem update_mem_rev {db : DBState} {jid : Nat} {st : String}
    {er : Option String} {j2 : JobRow}
    (h : j2 ∈ (update_job_status db jid st er).jobs) :
    ∃ x, x ∈ db.jobs ∧
      j2 = (if x.id = jid then { x with status := st, error := er } else x) := by
  obtain ⟨x, hx, hfx⟩ := List.mem_map.mp h
  exact ⟨x, hx, hfx.symm⟩

/-- Well-formedness transfers along an operation that keeps every old
row (verbatim) and satisfies the id bounds, with an unchanged phase. -/
theorem WF_of_extend {σ : SysState} {db2 : DBState} (h : WF σ)
    (hb2 : ∀ j ∈ db2.jobs, j.id < db2.nextId)
    (hnd2 : (db2.jobs.map (fun j => j.id)).Nodup)
    (hold : ∀ j ∈ σ.db.jobs, j ∈ db2.jobs) :
    WF { db := db2, phase := σ.phase } := by
  obtain ⟨-, -, hphase⟩ := h
  refine ⟨hb2, hnd2, ?_⟩
  cases hph : σ.phase with
  | none => trivial
  | some jid =>
    rw [hph] at hphase
    obtain ⟨j, hj, h1, h2⟩ := hphase
    exact ⟨j, hold j hj, h1, h2⟩

/-- One system action preserves well-formedness and moves every job along
an allowed status edge; jobs without an old counterpart are queued. -/
theorem sysStep_ok (digest : String → String → String) (cfg : Config)
    (σ : SysState) (act : SysAct) (h : WF σ) :
    WF (sysStep digest cfg σ act) ∧ StepOK σ (sysStep digest cfg σ act) := by
  obtain ⟨hbound, hnd, hphase⟩ := h
  cases act with
  | ingress req =>
    obtain ⟨hb2, hnd2, hold, hnew⟩ :=
      extend_ok (webhook_extends digest cfg σ.db req) hbound hnd
    have hstep : sysStep digest cfg σ (SysAct.ingress req) =
        { db := (webhook digest cfg σ.db req).2, phase := σ.phase } := rfl
    rw [hstep]
    refine ⟨WF_of_extend ⟨hbound, hnd, hphase⟩ hb2 hnd2 hold, ?_, ?_⟩
    · intro j hj
      exact ⟨j, hold j hj, rfl, Or.inl rfl⟩
    · intro j2 hj2
      rcases hnew j2 hj2 with hm | hq
      · exact Or.inl ⟨j2, hm, rfl⟩
      · exact Or.inr hq.1
  | fetch =>
    cases hph : σ.phase with
    | some jid =>
      have hstep : sysStep digest cfg σ SysAct.fetch = σ := by
        simp [sysStep, hph]
      rw [hstep]
      exact ⟨⟨hbound, hnd, hphase⟩, StepOK_refl σ⟩
    | none =>
      cases hf : fetch_next_job σ.db with
      | none =>
        have hstep : sysStep digest cfg σ SysAct.fetch = σ := by
          simp [sysStep, hph, hf]
        rw [hstep]
        exact ⟨⟨hbound, hnd, hphase⟩, StepOK_refl σ⟩
      | some jq =>
        obtain ⟨hqm, hqs, -⟩ := fetch_next_job_spec σ.db jq hf
        have hstep : sysStep digest cfg σ SysAct.fetch =
            { db := update_job_status σ.db jq.id "running" none,
              phase := some jq.id } := by
          simp [sysStep, hph, hf]
        rw [hstep]
        have hids := update_ids σ.db jq.id "running" none
        refine ⟨⟨?_, ?_, ?_⟩, ?_, ?_⟩
        · intro j hj
          obtain ⟨x, hx, hfx⟩ := update_mem_rev hj
          have hid : j.id = x.id := by
            rw [hfx]; exact update_fun_id x jq.id "running" none
          show j.id < σ.db.nextId
          rw [hid]
          exact hbound x hx
        · show ((update_job_status σ.db jq.id "running" none).jobs.map
            (fun j => j.id)).Nodup
          rw [hids]
          exact hnd
        · refine ⟨{ jq with status := "running", error := none }, ?_, rfl, rfl⟩
          have hmm := update_mem_image hqm jq.id "running" none
          rw [if_pos rfl] at hmm
          exact hmm
        · intro j hj
          by_cases hxx : j.id = jq.id
          · have hjq : j = jq := List.inj_on_of_nodup_map hnd hj hqm hxx
            refine ⟨{ j with status := "running", error := none }, ?_, rfl, ?_⟩
            · have hmm := update_mem_image hj jq.id "running" none
              rw [if_pos hxx] at hmm
              exact hmm
            · rw [hjq, hqs]
              exact Or.inr (Or.inl ⟨rfl, rfl⟩)
          · refine ⟨j, ?_, rfl, Or.inl rfl⟩
            have hmm := update_mem_image hj jq.id "running" none
            rw [if_neg hxx] at hmm
            exact hmm
        · intro j2 hj2
          obtain ⟨x, hx, hfx⟩ := update_mem_rev hj2
          refine Or.inl ⟨x, hx, ?_⟩
          rw [hfx]
          exact (update_fun_id x jq.id "running" none).symm
  | finish ops ok err =>
    cases hph : σ.phase with
    | none =>
      have hstep : sysStep digest cfg σ (SysAct.finish ops ok err) = σ := by
        simp [sysStep, hph]
      rw [hstep]
      exact ⟨⟨hbound, hnd, hphase⟩, StepOK_refl σ⟩
    | some jid =>
      rw [hph] at hphase
      obtain ⟨jr, hjr, hjrid, hjrst⟩ := hphase
      obtain ⟨hb1, hnd1, hold1, hnew1⟩ :=
        extend_ok (JE_applyOps ops σ.db) hbound hnd
      have hterm : (if ok then "done" else "failed") = "done" ∨
          (if ok then "done" else "failed") = "failed" := by
        cases ok <;> simp
      have hstep : sysStep digest cfg σ (SysAct.finish ops ok err) =
          { db := update_job_status (applyOps ops σ.db) jid
              (if ok then "done" else "failed")
              (if ok then none else some err),
            phase := none } := by
        simp [sysStep, hph]
      rw [hstep]
      have hids := update_ids (applyOps ops σ.db) jid
        (if ok then "done" else "failed") (if ok then none else some err)
      refine ⟨⟨?_, ?_, trivial⟩, ?_, ?_⟩
      · intro j hj
        obtain ⟨x, hx, hfx⟩ := update_mem_rev hj
        have hid : j.id = x.id := by
          rw [hfx]; exact update_fun_id x jid _ _
        show j.id < (applyOps ops σ.db).nextId
        rw [hid]
        exact hb1 x hx
      · show ((update_job_status (applyOps ops σ.db) jid
          (if ok then "done" else "failed")
          (if ok then none else some err)).jobs.map (fun j => j.id)).Nodup
        rw [hids]
        exact hnd1
      · intro j hj
        have hj1 := hold1 j hj
        by_cases hxx : j.id = jid
        · refine ⟨{ j with status := (if ok then "done" else "failed"), error := (if ok then none else some err) }, ?_, rfl, ?_⟩
          · have hmm := update_mem_image hj1 jid
              (if ok then "done" else "failed") (if ok then none else some err)
            rw [if_pos hxx] at hmm
            exact hmm
          · have hjq : j = jr :=
              List.inj_on_of_nodup_map hnd hj hjr (by rw [hxx, hjrid])
            rw [hjq, hjrst]
            exact Or.inr (Or.inr ⟨rfl, hterm⟩)
        · refine ⟨j, ?_, rfl, Or.inl rfl⟩
          have hmm := update_mem_image hj1 jid
            (if ok then "done" else "failed") (if ok then none else some err)
          rw [if_neg hxx] at hmm
          exact hmm
      · intro j2 hj2
        obtain ⟨x, hx, hfx⟩ := update_mem_rev hj2
        rcases hnew1 x hx with hm | hq
        · refine Or.inl ⟨x, hm, ?_⟩
          rw [hfx]
          exact (update_fun_id x jid _ _).symm
        · by_cases hxx : x.id = jid
          · exfalso
            have h2 : jid < σ.db.nextId := by
              rw [← hjrid]
              exact hbound jr hjr
            have h1 := hq.2
            omega
          · rw [hfx, if_neg hxx]
            exact Or.inr hq.1

/-- Terminal statuses survive any sequence of system actions. -/
theorem runSys_terminal (digest : String → String → String) (cfg : Config)
    (acts : List SysAct) :
    ∀ σ, WF σ → ∀ j ∈ σ.db.jobs, (j.status = "done" ∨ j.status = "failed") →
      ∃ j2, j2 ∈ (runSys digest cfg acts σ).db.jobs ∧ j2.id = j.id ∧
        j2.status = j.status := by
  induction acts with
  | nil =>
    intro σ _ j hj _
    exact ⟨j, hj, rfl, rfl⟩
  | cons a rest ih =>
    intro σ hWF j hj ht
    obtain ⟨hWF2, hok⟩ := sysStep_ok digest cfg σ a hWF
    obtain ⟨j2, hj2, hid, hedge⟩ := hok.1 j hj
    have hst : j2.status = j.status := by
      unfold allowedEdge at hedge
      rcases hedge with he | ⟨h1, _⟩ | ⟨h1, _⟩
      · exact he.symm
      · rcases ht with ht | ht <;> rw [ht] at h1 <;> exact absurd h1 (by decide)
      · rcases ht with ht | ht <;> rw [ht] at h1 <;> exact absurd h1 (by decide)
    have hr : runSys digest cfg (a :: rest) σ =
        runSys digest cfg rest (sysStep digest cfg σ a) := rfl
    rw [hr]
    obtain ⟨j3, hj3, hid3, hst3⟩ :=
      ih (sysStep digest cfg σ a) hWF2 j2 hj2 (by rw [hst]; exact ht)
    exact ⟨j3, hj3, by rw [hid3, hid], by rw [hst3, hst]⟩

/-- C8: on any well-formed system state, every system action (ingress
request, worker fetch, worker finish) moves each job's status only along
`queued → running → {done, failed}` (or leaves it, with fresh jobs
entering as `queued`); a `done`/`failed` job keeps its status across any
sequence of actions; and a `running` job always descends from a
`queued`/`running` row with the same id — so `running` is entered only
through the single queued→running transition of the worker fetch. -/
theorem terminal_status (digest : String → String → String) (cfg : Config)
    (σ : SysState) (h : WF σ) :
    (∀ act, WF (sysStep digest cfg σ act) ∧
      StepOK σ (sysStep digest cfg σ act)) ∧
    (∀ acts, ∀ j ∈ σ.db.jobs, (j.status = "done" ∨ j.status = "failed") →
      ∃ j2, j2 ∈ (runSys digest cfg acts σ).db.jobs ∧ j2.id = j.id ∧
        j2.status = j.status) ∧
    (∀ act j2, j2 ∈ (sysStep digest cfg σ act).db.jobs →
      j2.status = "running" →
      ∃ j, j ∈ σ.db.jobs ∧ j.id = j2.id ∧
        (j.status = "queued" ∨ j.status = "running")) := by
  refine ⟨fun act => sysStep_ok digest cfg σ act h,
    fun acts => runSys_terminal digest cfg acts σ h, ?_⟩
  intro act j2 hj2 hrun
  obtain ⟨hWF2, hok⟩ := sysStep_ok digest cfg σ act h
  rcases hok.2 j2 hj2 with ⟨j, hj, hid⟩ | hq
  · obtain ⟨j2b, hj2b, hidb, hedge⟩ := hok.1 j hj
    have hj2eq : j2b = j2 :=
      List.inj_on_of_nodup_map hWF2.2.1 hj2b hj2 (by rw [hidb, hid])
    rw [hj2eq] at hedge
    refine ⟨j, hj, hid, ?_⟩
    unfold allowedEdge at hedge
    rcases hedge with he | ⟨h1, _⟩ | ⟨h1, h2⟩
    · right; rw [he, hrun]
    · left; exact h1
    · exfalso
      rcases h2 with h2 | h2 <;> rw [hrun] at h2 <;> exact absurd h2 (by decide)
  · rw [hq] at hrun
    exact absurd hrun (by decide)

/-- C8 witness: one worker fetch on a concrete well-formed state. -/
theorem terminal_status_witness :
    WF (sysStep constDigest blankConfig c8Sys SysAct.fetch) ∧
    StepOK c8Sys (sysStep constDigest blankConfig c8Sys SysAct.fetch) :=
  (terminal_status constDigest blankConfig c8Sys
    ⟨by decide, by decide, trivial⟩).1 SysAct.fetch
